import Mathlib

/-!
Verification development for the TEE worker core of the repository
(src/workers/tee_server.py and src/workers/query_executor.py).

Python strings are modelled as `List Char`.  The per-character string
operations (`str.lower`, `str.upper`, `str.strip`, `str.split`) are
modelled character by character, which is faithful on the ASCII alphabet
handled by this code.  Machine-level concerns (bytes vs text, network,
the sqlite engine, the RSA/AES primitives of the cryptography library)
sit outside the program text under verification; the cryptographic
primitives are taken as parameters where a claim mentions them.
-/

namespace TeeCore

/-- The double-quote character (written via its code point to keep the
    source free of quote-escaping noise). -/
def quoteChar : Char := Char.ofNat 34

/-- The ASCII whitespace recognised by Python `str.strip`: space, tab,
    line feed, vertical tab (11), form feed (12), carriage return, and
    the separators FS..US (28..31).  Non-ASCII whitespace such as U+0085
    lies outside the declared ASCII scope of this model. -/
def pyIsSpace (c : Char) : Bool :=
  c = ' ' || c = '\t' || c = '\n' || c = '\r' ||
    c = Char.ofNat 11 || c = Char.ofNat 12 ||
    c = Char.ofNat 28 || c = Char.ofNat 29 || c = Char.ofNat 30 || c = Char.ofNat 31

/-- Model of `str.strip()`: drop whitespace from both ends. -/
def pyStrip (cs : List Char) : List Char :=
  ((cs.dropWhile pyIsSpace).reverse.dropWhile pyIsSpace).reverse

/-- Model of `str.split(sep)` with a one-character separator: splits at
    every occurrence and keeps empty segments; the empty string yields
    one empty segment, as in Python. -/
def pySplit (sep : Char) : List Char → List (List Char)
  | [] => [[]]
  | c :: rest =>
    match pySplit sep rest with
    | [] => if c = sep then [[], []] else [[c]]
    | seg :: segs => if c = sep then [] :: seg :: segs else (c :: seg) :: segs

/-- Model of `str.lower` on one character (ASCII range). -/
def pyLowerChar (c : Char) : Char :=
  if 'A' ≤ c && c ≤ 'Z' then Char.ofNat (c.toNat + 32) else c

/-- Model of `str.upper` on one character (ASCII range). -/
def pyUpperChar (c : Char) : Char :=
  if 'a' ≤ c && c ≤ 'z' then Char.ofNat (c.toNat - 32) else c

/-- The character class `[a-z0-9_]` kept by the sanitizing regex of
    `QueryExecutor._sanitize_table_name`. -/
def isKeptChar (c : Char) : Bool :=
  ('a' ≤ c && c ≤ 'z') || ('0' ≤ c && c ≤ '9') || c = '_'

/-- One step of `re.sub(r'[^a-z0-9_]', '_', s)`. -/
def substChar (c : Char) : Char :=
  if isKeptChar c then c else '_'

/-- Model of `str.isalpha` on the characters reachable after the regex
    substitution (all in `[a-z0-9_]`, where Unicode alpha = `[a-z]`). -/
def pyIsAlpha (c : Char) : Bool :=
  ('a' ≤ c && c ≤ 'z') || ('A' ≤ c && c ≤ 'Z')

/-- The fixed literal prepended by the sanitizer: `table_`. -/
def tableLit : List Char := ['t', 'a', 'b', 'l', 'e', '_']

/-- The fallback result for an empty sanitization: `table_unnamed`. -/
def tableUnnamed : List Char :=
  tableLit ++ ['u', 'n', 'n', 'a', 'm', 'e', 'd']

/-- The regex-substituted lowercased string of
    `QueryExecutor._sanitize_table_name`. -/
def sanitizeCore (name : List Char) : List Char :=
  (name.map pyLowerChar).map substChar

/-- Model of `QueryExecutor._sanitize_table_name`:
    lowercase, replace every character outside `[a-z0-9_]` with `_`,
    prepend `table_` if the nonempty result does not start with a letter,
    and fall back to `table_unnamed` when the substitution result is empty
    (the final `or` of the source only fires in that case, because the
    prefixed string is never empty). -/
def sanitizeTableName (name : List Char) : List Char :=
  match sanitizeCore name with
  | [] => tableUnnamed
  | c :: rest => if pyIsAlpha c then c :: rest else tableLit ++ c :: rest

/-- Decimal digit character for a value below 10, as produced by the
    Python formatting of a nonnegative integer. -/
def digitChar : Nat → Char
  | 0 => '0' | 1 => '1' | 2 => '2' | 3 => '3' | 4 => '4'
  | 5 => '5' | 6 => '6' | 7 => '7' | 8 => '8' | _ => '9'

/-- Model of the decimal rendering `str(n)` of a nonnegative integer,
    as interpolated by the f-string building the derived table name. -/
def natChars (n : Nat) : List Char :=
  if n < 10 then [digitChar n]
  else natChars (n / 10) ++ [digitChar (n % 10)]
  decreasing_by exact Nat.div_lt_self (by omega) (by decide)

/-- The literal `dataset_` opening every derived table name. -/
def datasetLit : List Char := ['d', 'a', 't', 'a', 's', 'e', 't', '_']

/-- Model of the derived table name of `QueryExecutor.load_dataset`:
    the f-string `dataset_` + dataset id + `_` + sanitized dataset name. -/
def deriveTableName (datasetId : Nat) (datasetName : List Char) : List Char :=
  datasetLit ++ natChars datasetId ++ '_' :: sanitizeTableName datasetName

/-- The shape `^[a-z][a-z0-9_]*$` claimed for sanitized identifiers. -/
def isValidIdent : List Char → Bool
  | [] => false
  | c :: rest => ('a' ≤ c && c ≤ 'z') && (c :: rest).all isKeptChar

lemma isKeptChar_substChar (c : Char) : isKeptChar (substChar c) = true := by
  unfold substChar
  by_cases h : isKeptChar c = true
  · simp [h]
  · simp [h]; decide

lemma kept_and_alpha_is_lower (c : Char) (h1 : isKeptChar c = true)
    (h2 : pyIsAlpha c = true) : ('a' ≤ c && c ≤ 'z') = true := by
  simp only [isKeptChar, pyIsAlpha, Bool.or_eq_true, Bool.and_eq_true,
    decide_eq_true_eq] at h1 h2 ⊢
  rcases h1 with (h1 | h1) | h1
  · exact h1
  · exfalso
    rcases h2 with h2 | h2
    · exact absurd (le_trans h2.1 h1.2) (by decide)
    · exact absurd (le_trans h2.1 h1.2) (by decide)
  · subst h1
    rcases h2 with h2 | h2
    · exact absurd h2.1 (by decide)
    · exact absurd h2.2 (by decide)

/-- Claim C8: `sanitize_identifier` is total and deterministic (it is a
    function), and on every input the result matches `^[a-z][a-z0-9_]*$`:
    nonempty, starting with a lowercase letter, all characters kept in
    `[a-z0-9_]`. -/
theorem sanitize_identifier_valid_shape (name : List Char) :
    isValidIdent (sanitizeTableName name) = true := by
  have hkept : ∀ c ∈ sanitizeCore name, isKeptChar c = true := by
    intro c hc
    rcases List.mem_map.mp hc with ⟨x, _, rfl⟩
    exact isKeptChar_substChar x
  unfold sanitizeTableName
  cases hs : sanitizeCore name with
  | nil => decide
  | cons c rest =>
    rw [hs] at hkept
    show isValidIdent (if pyIsAlpha c = true then c :: rest else tableLit ++ c :: rest) = true
    by_cases halpha : pyIsAlpha c = true
    · rw [if_pos halpha]
      simp only [isValidIdent, Bool.and_eq_true]
      refine ⟨?_, List.all_eq_true.mpr hkept⟩
      have := kept_and_alpha_is_lower c (hkept c (by simp)) halpha
      simpa using this
    · rw [if_neg halpha]
      show isValidIdent ('t' :: ('a' :: 'b' :: 'l' :: 'e' :: '_' :: (c :: rest))) = true
      simp only [isValidIdent, List.all_cons, Bool.and_eq_true]
      refine ⟨by decide, by decide, by decide, by decide, by decide, by decide, by decide, ?_⟩
      have := List.all_eq_true.mpr hkept
      simpa using this

lemma digitChar_ne_underscore (d : Nat) : digitChar d ≠ '_' := by
  unfold digitChar
  split <;> decide

lemma natChars_no_underscore (n : Nat) : '_' ∉ natChars n := by
  induction n using Nat.strong_induction_on with
  | _ n ih =>
    rw [natChars]
    by_cases h : n < 10
    · simp only [h, if_true, List.mem_singleton]
      exact fun he => digitChar_ne_underscore n he.symm
    · simp only [h, if_false, List.mem_append, List.mem_singleton]
      rintro (hmem | he)
      · exact ih (n / 10) (Nat.div_lt_self (by omega) (by decide)) hmem
      · exact digitChar_ne_underscore (n % 10) he.symm

/-- Digit-string value, used to invert the decimal rendering. -/
def natVal (cs : List Char) : Nat :=
  cs.foldl (fun a c => 10 * a + (c.toNat - 48)) 0

lemma natVal_append_digit (cs : List Char) (c : Char) :
    natVal (cs ++ [c]) = 10 * natVal cs + (c.toNat - 48) := by
  unfold natVal
  rw [List.foldl_append]
  rfl

lemma digitChar_toNat (d : Nat) (h : d < 10) : (digitChar d).toNat = 48 + d := by
  interval_cases d <;> rfl

lemma natVal_natChars (n : Nat) : natVal (natChars n) = n := by
  induction n using Nat.strong_induction_on with
  | _ n ih =>
    rw [natChars]
    by_cases h : n < 10
    · simp only [h, if_true]
      show natVal [digitChar n] = n
      unfold natVal
      simp [digitChar_toNat n h]
    · simp only [h, if_false]
      rw [natVal_append_digit, ih (n / 10) (Nat.div_lt_self (by omega) (by decide)),
        digitChar_toNat (n % 10) (Nat.mod_lt n (by decide))]
      omega

lemma natChars_injective {n m : Nat} (h : natChars n = natChars m) : n = m := by
  have := natVal_natChars n
  rw [h, natVal_natChars] at this
  exact this.symm

lemma append_sep_inj (sep : Char) :
    ∀ (a1 a2 b1 b2 : List Char), sep ∉ a1 → sep ∉ a2 →
      a1 ++ sep :: b1 = a2 ++ sep :: b2 → a1 = a2 ∧ b1 = b2 := by
  intro a1
  induction a1 with
  | nil =>
    intro a2 b1 b2 _ h2 he
    cases a2 with
    | nil => simpa using he
    | cons c a2t =>
      exfalso
      simp only [List.nil_append, List.cons_append, List.cons.injEq] at he
      exact h2 (he.1 ▸ List.mem_cons_self c a2t)
  | cons c a1t ih =>
    intro a2 b1 b2 h1 h2 he
    cases a2 with
    | nil =>
      exfalso
      simp only [List.cons_append, List.nil_append, List.cons.injEq] at he
      exact h1 (he.1.symm ▸ List.mem_cons_self c a1t)
    | cons d a2t =>
      simp only [List.cons_append, List.cons.injEq] at he
      obtain ⟨rfl, he2⟩ := he
      have h1t : sep ∉ a1t := fun hm => h1 (List.mem_cons_of_mem c hm)
      have h2t : sep ∉ a2t := fun hm => h2 (List.mem_cons_of_mem c hm)
      obtain ⟨rfl, rfl⟩ := ih a2t b1 b2 h1t h2t he2
      exact ⟨rfl, rfl⟩

/-- Claim C7: the derived table name is injective in the dataset id —
    distinct dataset ids give distinct table names, whatever the two
    declared dataset names are (equal, or sanitizing to the same token). -/
theorem derive_table_name_injective_in_id
    (d1 d2 : Nat) (n1 n2 : List Char) (h : d1 ≠ d2) :
    deriveTableName d1 n1 ≠ deriveTableName d2 n2 := by
  intro he
  have he2 : natChars d1 ++ '_' :: sanitizeTableName n1 =
      natChars d2 ++ '_' :: sanitizeTableName n2 := by
    simpa [deriveTableName, datasetLit] using he
  have := append_sep_inj '_' (natChars d1) (natChars d2)
    (sanitizeTableName n1) (sanitizeTableName n2)
    (natChars_no_underscore d1) (natChars_no_underscore d2) he2
  exact h (natChars_injective this.1)

/-- Witness for C7 at a concrete pair of ids sharing a declared name. -/
theorem derive_table_name_injective_in_id_witness :
    (1 : Nat) ≠ 2 ∧ deriveTableName 1 ['x'] ≠ deriveTableName 2 ['x'] :=
  ⟨by decide, derive_table_name_injective_in_id 1 2 ['x'] ['x'] (by decide)⟩

/-- Parser modes of the `csv.reader` model: at the start of a record, at
    the start of a later field (just after a comma), inside an unquoted
    field, inside a quoted field, and just after a quote character seen
    inside a quoted field. -/
inductive CsvMode
  | atRecordStart | atFieldStart | inUnquoted | inQuoted | afterQuote
deriving DecidableEq

/-- One-pass model of `csv.reader` over the full text, default dialect
    (comma delimiter, double-quote quoting, doubled quotes as escapes,
    non-strict junk after a closing quote), for input without carriage
    returns.  `field` is the field being read, `record` the completed
    fields of the current record, `done` the completed records.  A blank
    line yields an empty record, matching the Python reader. -/
def parseCsvAux (mode : CsvMode) (field : List Char) (record : List (List Char))
    (done : List (List (List Char))) : List Char → List (List (List Char))
  | [] =>
    match mode with
    | .atRecordStart => done
    | _ => done ++ [record ++ [field]]
  | c :: rest =>
    match mode with
    | .atRecordStart =>
      if c = '\n' then parseCsvAux .atRecordStart [] [] (done ++ [[]]) rest
      else if c = ',' then parseCsvAux .atFieldStart [] [[]] done rest
      else if c = quoteChar then parseCsvAux .inQuoted [] [] done rest
      else parseCsvAux .inUnquoted [c] [] done rest
    | .atFieldStart =>
      if c = '\n' then parseCsvAux .atRecordStart [] [] (done ++ [record ++ [[]]]) rest
      else if c = ',' then parseCsvAux .atFieldStart [] (record ++ [[]]) done rest
      else if c = quoteChar then parseCsvAux .inQuoted [] record done rest
      else parseCsvAux .inUnquoted [c] record done rest
    | .inUnquoted =>
      if c = '\n' then parseCsvAux .atRecordStart [] [] (done ++ [record ++ [field]]) rest
      else if c = ',' then parseCsvAux .atFieldStart [] (record ++ [field]) done rest
      else parseCsvAux .inUnquoted (field ++ [c]) record done rest
    | .inQuoted =>
      if c = quoteChar then parseCsvAux .afterQuote field record done rest
      else parseCsvAux .inQuoted (field ++ [c]) record done rest
    | .afterQuote =>
      if c = quoteChar then parseCsvAux .inQuoted (field ++ [quoteChar]) record done rest
      else if c = '\n' then parseCsvAux .atRecordStart [] [] (done ++ [record ++ [field]]) rest
      else if c = ',' then parseCsvAux .atFieldStart [] (record ++ [field]) done rest
      else parseCsvAux .inUnquoted (field ++ [c]) record done rest

/-- The records `csv.reader` yields on the whole text. -/
def parseCsv (cs : List Char) : List (List (List Char)) :=
  parseCsvAux .atRecordStart [] [] [] cs

/-- The session-less row count of `upload_dataset`:
    `len(csv_content.strip().split(chr(10))) - 1`, as a signed value. -/
def sessionlessRowCount (cs : List Char) : Int :=
  ((pySplit '\n' (pyStrip cs)).length : Int) - 1

/-- The session-bound row count: the number of data records the parser
    yields after the header record, as a signed value. -/
def parserRowCount (cs : List Char) : Int :=
  ((parseCsv cs).length : Int) - 1

/-- Whether every carriage return is immediately followed by a newline
    (CRLF pairs only).  Under this condition the newline-only parser
    model is record-count-faithful to the Python reader, which ends a
    record at a carriage return outside quotes: a CRLF pair still ends
    exactly one record in both. -/
def crBeforeNl : List Char → Bool
  | [] => true
  | c :: rest =>
    if c = '\r' then
      match rest with
      | '\n' :: _ => crBeforeNl rest
      | _ => false
    else crBeforeNl rest

/-- Runs the `parseCsvAux` mode transitions and checks that no newline
    is ever consumed inside a quoted field. -/
def quotedNlFreeAux (mode : CsvMode) : List Char → Bool
  | [] => true
  | c :: rest =>
    match mode with
    | .atRecordStart =>
      if c = '\n' then quotedNlFreeAux .atRecordStart rest
      else if c = ',' then quotedNlFreeAux .atFieldStart rest
      else if c = quoteChar then quotedNlFreeAux .inQuoted rest
      else quotedNlFreeAux .inUnquoted rest
    | .atFieldStart =>
      if c = '\n' then quotedNlFreeAux .atRecordStart rest
      else if c = ',' then quotedNlFreeAux .atFieldStart rest
      else if c = quoteChar then quotedNlFreeAux .inQuoted rest
      else quotedNlFreeAux .inUnquoted rest
    | .inUnquoted =>
      if c = '\n' then quotedNlFreeAux .atRecordStart rest
      else if c = ',' then quotedNlFreeAux .atFieldStart rest
      else quotedNlFreeAux .inUnquoted rest
    | .inQuoted =>
      if c = quoteChar then quotedNlFreeAux .afterQuote rest
      else if c = '\n' then false
      else quotedNlFreeAux .inQuoted rest
    | .afterQuote =>
      if c = quoteChar then quotedNlFreeAux .inQuoted rest
      else if c = '\n' then quotedNlFreeAux .atRecordStart rest
      else if c = ',' then quotedNlFreeAux .atFieldStart rest
      else quotedNlFreeAux .inUnquoted rest

/-- No newline inside a quoted field, from the initial parser mode. -/
def quotedNlFree (cs : List Char) : Bool :=
  quotedNlFreeAux .atRecordStart cs

lemma pySplit_ne_nil (sep : Char) (cs : List Char) : pySplit sep cs ≠ [] := by
  cases cs with
  | nil => simp [pySplit]
  | cons c rest =>
    simp only [pySplit]
    rcases hps : pySplit sep rest with _ | ⟨seg, segs⟩ <;>
      by_cases hc : c = sep <;> simp [hps, hc]

lemma pySplit_length (sep : Char) (cs : List Char) :
    (pySplit sep cs).length = cs.count sep + 1 := by
  induction cs with
  | nil => simp [pySplit]
  | cons c rest ih =>
    simp only [pySplit]
    rcases hps : pySplit sep rest with _ | ⟨seg, segs⟩
    · exact absurd hps (pySplit_ne_nil sep rest)
    · rw [hps] at ih
      simp only [List.length_cons] at ih
      show (if c = sep then [] :: seg :: segs else (c :: seg) :: segs).length =
        (c :: rest).count sep + 1
      by_cases hc : c = sep
      · subst hc
        rw [if_pos rfl]
        simp only [List.length_cons, List.count_cons_self]
        omega
      · rw [if_neg hc]
        simp only [List.length_cons, List.count_cons_of_ne (Ne.symm hc)]
        omega

lemma record_bonus_newline (rest : List Char) (m : CsvMode) :
    (if (rest = [] ∧ CsvMode.atRecordStart = CsvMode.atRecordStart) ∨
        rest.getLast? = some '\n' then (0 : Nat) else 1) =
    (if (('\n' :: rest : List Char) = [] ∧ m = CsvMode.atRecordStart) ∨
        ('\n' :: rest : List Char).getLast? = some '\n' then 0 else 1) := by
  rcases rest with _ | ⟨d, t⟩
  · simp
  · simp [List.getLast?_cons_cons]

lemma record_bonus_other (rest : List Char) (c : Char) (m m₁ : CsvMode)
    (hc : ¬ c = '\n') (hm : ¬ m₁ = CsvMode.atRecordStart) :
    (if (rest = [] ∧ m₁ = CsvMode.atRecordStart) ∨
        rest.getLast? = some '\n' then (0 : Nat) else 1) =
    (if ((c :: rest : List Char) = [] ∧ m = CsvMode.atRecordStart) ∨
        (c :: rest : List Char).getLast? = some '\n' then 0 else 1) := by
  rcases rest with _ | ⟨d, t⟩
  · simp [hm, hc]
  · simp [hm, List.getLast?_cons_cons]

lemma parseCsvAux_newline_count :
    ∀ (cs : List Char) (mode : CsvMode), quotedNlFreeAux mode cs = true →
      ∀ (field : List Char) (record : List (List Char))
        (done : List (List (List Char))),
        (parseCsvAux mode field record done cs).length =
          done.length + cs.count '\n' +
            (if (cs = [] ∧ mode = CsvMode.atRecordStart) ∨
                cs.getLast? = some '\n' then 0 else 1) := by
  intro cs
  induction cs with
  | nil =>
    intro mode _ field record done
    cases mode <;> simp [parseCsvAux]
  | cons c rest ih =>
    intro mode hq field record done
    cases mode with
    | atRecordStart =>
      by_cases hnl : c = '\n'
      · subst hnl
        have hq2 : quotedNlFreeAux CsvMode.atRecordStart rest = true := hq
        show (parseCsvAux CsvMode.atRecordStart [] [] (done ++ [[]]) rest).length = _
        rw [ih CsvMode.atRecordStart hq2 [] [] (done ++ [[]])]
        rw [record_bonus_newline rest CsvMode.atRecordStart]
        simp only [List.length_append, List.length_singleton, List.count_cons_self]
        omega
      · by_cases hcm : c = ','
        · subst hcm
          have hq2 : quotedNlFreeAux CsvMode.atFieldStart rest = true := hq
          show (parseCsvAux CsvMode.atFieldStart [] [[]] done rest).length = _
          rw [ih CsvMode.atFieldStart hq2 [] [[]] done]
          rw [record_bonus_other rest ',' CsvMode.atRecordStart CsvMode.atFieldStart
            (by decide) (by decide)]
          rw [List.count_cons_of_ne (by decide : ('\n' : Char) ≠ ',')]
        · by_cases hcq : c = quoteChar
          · subst hcq
            have hq2 : quotedNlFreeAux CsvMode.inQuoted rest = true := hq
            show (parseCsvAux CsvMode.inQuoted [] [] done rest).length = _
            rw [ih CsvMode.inQuoted hq2 [] [] done]
            rw [record_bonus_other rest quoteChar CsvMode.atRecordStart CsvMode.inQuoted
              (by decide) (by decide)]
            rw [List.count_cons_of_ne (by decide : ('\n' : Char) ≠ quoteChar)]
          · simp only [quotedNlFreeAux, if_neg hnl, if_neg hcm, if_neg hcq] at hq
            simp only [parseCsvAux]
            rw [if_neg hnl, if_neg hcm, if_neg hcq]
            rw [ih CsvMode.inUnquoted hq [c] [] done]
            rw [record_bonus_other rest c CsvMode.atRecordStart CsvMode.inUnquoted
              hnl (by decide)]
            rw [List.count_cons_of_ne (Ne.symm hnl)]
            simp
    | atFieldStart =>
      by_cases hnl : c = '\n'
      · subst hnl
        have hq2 : quotedNlFreeAux CsvMode.atRecordStart rest = true := hq
        show (parseCsvAux CsvMode.atRecordStart [] [] (done ++ [record ++ [[]]]) rest).length = _
        rw [ih CsvMode.atRecordStart hq2 [] [] (done ++ [record ++ [[]]])]
        rw [record_bonus_newline rest CsvMode.atFieldStart]
        simp only [List.length_append, List.length_singleton, List.count_cons_self]
        omega
      · by_cases hcm : c = ','
        · subst hcm
          have hq2 : quotedNlFreeAux CsvMode.atFieldStart rest = true := hq
          show (parseCsvAux CsvMode.atFieldStart [] (record ++ [[]]) done rest).length = _
          rw [ih CsvMode.atFieldStart hq2 [] (record ++ [[]]) done]
          rw [record_bonus_other rest ',' CsvMode.atFieldStart CsvMode.atFieldStart
            (by decide) (by decide)]
          rw [List.count_cons_of_ne (by decide : ('\n' : Char) ≠ ',')]
        · by_cases hcq : c = quoteChar
          · subst hcq
            have hq2 : quotedNlFreeAux CsvMode.inQuoted rest = true := hq
            show (parseCsvAux CsvMode.inQuoted [] record done rest).length = _
            rw [ih CsvMode.inQuoted hq2 [] record done]
            rw [record_bonus_other rest quoteChar CsvMode.atFieldStart CsvMode.inQuoted
              (by decide) (by decide)]
            rw [List.count_cons_of_ne (by decide : ('\n' : Char) ≠ quoteChar)]
          · simp only [quotedNlFreeAux, if_neg hnl, if_neg hcm, if_neg hcq] at hq
            simp only [parseCsvAux]
            rw [if_neg hnl, if_neg hcm, if_neg hcq]
            rw [ih CsvMode.inUnquoted hq [c] record done]
            rw [record_bonus_other rest c CsvMode.atFieldStart CsvMode.inUnquoted
              hnl (by decide)]
            rw [List.count_cons_of_ne (Ne.symm hnl)]
    | inUnquoted =>
      by_cases hnl : c = '\n'
      · subst hnl
        have hq2 : quotedNlFreeAux CsvMode.atRecordStart rest = true := hq
        show (parseCsvAux CsvMode.atRecordStart [] [] (done ++ [record ++ [field]]) rest).length = _
        rw [ih CsvMode.atRecordStart hq2 [] [] (done ++ [record ++ [field]])]
        rw [record_bonus_newline rest CsvMode.inUnquoted]
        simp only [List.length_append, List.length_singleton, List.count_cons_self]
        omega
      · by_cases hcm : c = ','
        · subst hcm
          have hq2 : quotedNlFreeAux CsvMode.atFieldStart rest = true := hq
          show (parseCsvAux CsvMode.atFieldStart [] (record ++ [field]) done rest).length = _
          rw [ih CsvMode.atFieldStart hq2 [] (record ++ [field]) done]
          rw [record_bonus_other rest ',' CsvMode.inUnquoted CsvMode.atFieldStart
            (by decide) (by decide)]
          rw [List.count_cons_of_ne (by decide : ('\n' : Char) ≠ ',')]
        · simp only [quotedNlFreeAux, if_neg hnl, if_neg hcm] at hq
          simp only [parseCsvAux]
          rw [if_neg hnl, if_neg hcm]
          rw [ih CsvMode.inUnquoted hq (field ++ [c]) record done]
          rw [record_bonus_other rest c CsvMode.inUnquoted CsvMode.inUnquoted
            hnl (by decide)]
          rw [List.count_cons_of_ne (Ne.symm hnl)]
    | inQuoted =>
      by_cases hcq : c = quoteChar
      · subst hcq
        have hq2 : quotedNlFreeAux CsvMode.afterQuote rest = true := hq
        show (parseCsvAux CsvMode.afterQuote field record done rest).length = _
        rw [ih CsvMode.afterQuote hq2 field record done]
        rw [record_bonus_other rest quoteChar CsvMode.inQuoted CsvMode.afterQuote
          (by decide) (by decide)]
        rw [List.count_cons_of_ne (by decide : ('\n' : Char) ≠ quoteChar)]
      · by_cases hnl : c = '\n'
        · exfalso
          subst hnl
          have hfalse : quotedNlFreeAux CsvMode.inQuoted ('\n' :: rest) = false := rfl
          rw [hfalse] at hq
          exact Bool.noConfusion hq
        · simp only [quotedNlFreeAux, if_neg hcq, if_neg hnl] at hq
          simp only [parseCsvAux]
          rw [if_neg hcq]
          rw [ih CsvMode.inQuoted hq (field ++ [c]) record done]
          rw [record_bonus_other rest c CsvMode.inQuoted CsvMode.inQuoted
            hnl (by decide)]
          rw [List.count_cons_of_ne (Ne.symm hnl)]
    | afterQuote =>
      by_cases hcq : c = quoteChar
      · subst hcq
        have hq2 : quotedNlFreeAux CsvMode.inQuoted rest = true := hq
        show (parseCsvAux CsvMode.inQuoted (field ++ [quoteChar]) record done rest).length = _
        rw [ih CsvMode.inQuoted hq2 (field ++ [quoteChar]) record done]
        rw [record_bonus_other rest quoteChar CsvMode.afterQuote CsvMode.inQuoted
          (by decide) (by decide)]
        rw [List.count_cons_of_ne (by decide : ('\n' : Char) ≠ quoteChar)]
      · by_cases hnl : c = '\n'
        · subst hnl
          have hq2 : quotedNlFreeAux CsvMode.atRecordStart rest = true := hq
          show (parseCsvAux CsvMode.atRecordStart [] [] (done ++ [record ++ [field]]) rest).length = _
          rw [ih CsvMode.atRecordStart hq2 [] [] (done ++ [record ++ [field]])]
          rw [record_bonus_newline rest CsvMode.afterQuote]
          simp only [List.length_append, List.length_singleton, List.count_cons_self]
          omega
        · by_cases hcm : c = ','
          · subst hcm
            have hq2 : quotedNlFreeAux CsvMode.atFieldStart rest = true := hq
            show (parseCsvAux CsvMode.atFieldStart [] (record ++ [field]) done rest).length = _
            rw [ih CsvMode.atFieldStart hq2 [] (record ++ [field]) done]
            rw [record_bonus_other rest ',' CsvMode.afterQuote CsvMode.atFieldStart
              (by decide) (by decide)]
            rw [List.count_cons_of_ne (by decide : ('\n' : Char) ≠ ',')]
          · simp only [quotedNlFreeAux, if_neg hcq, if_neg hnl, if_neg hcm] at hq
            simp only [parseCsvAux]
            rw [if_neg hcq, if_neg hnl, if_neg hcm]
            rw [ih CsvMode.inUnquoted hq (field ++ [c]) record done]
            rw [record_bonus_other rest c CsvMode.afterQuote CsvMode.inUnquoted
              hnl (by decide)]
            rw [List.count_cons_of_ne (Ne.symm hnl)]

lemma dropWhile_eq_of_length_eq {p : Char → Bool} {l : List Char}
    (h : (l.dropWhile p).length = l.length) : l.dropWhile p = l :=
  (@List.dropWhile_sublist _ l p).eq_of_length h

lemma pyStrip_fixed_no_last_newline {cs : List Char}
    (h : pyStrip cs = cs) : cs.getLast? ≠ some '\n' := by
  intro hlast
  have hhead : cs.reverse.head? = some '\n' := by
    rw [List.head?_reverse]
    exact hlast
  rcases hcs : cs.reverse with _ | ⟨a, t⟩
  · rw [hcs] at hhead
    simp at hhead
  · rw [hcs] at hhead
    simp only [List.head?_cons, Option.some.injEq] at hhead
    subst hhead
    have hlen : (pyStrip cs).length = cs.length := by rw [h]
    unfold pyStrip at hlen
    rw [List.length_reverse] at hlen
    have h1 : ((cs.dropWhile pyIsSpace).reverse.dropWhile pyIsSpace).length ≤
        (cs.dropWhile pyIsSpace).reverse.length :=
      (List.dropWhile_sublist pyIsSpace).length_le
    have h2 : (cs.dropWhile pyIsSpace).length ≤ cs.length :=
      (List.dropWhile_sublist pyIsSpace).length_le
    rw [List.length_reverse] at h1
    have hd1 : (cs.dropWhile pyIsSpace).length = cs.length := by omega
    have heq1 : cs.dropWhile pyIsSpace = cs := dropWhile_eq_of_length_eq hd1
    have hd2 : (cs.reverse.dropWhile pyIsSpace).length = cs.reverse.length := by
      rw [heq1] at hlen h1
      rw [List.length_reverse]
      omega
    have heq2 : cs.reverse.dropWhile pyIsSpace = cs.reverse :=
      dropWhile_eq_of_length_eq hd2
    rw [hcs, List.dropWhile_cons, if_pos (by decide : pyIsSpace '\n' = true)] at heq2
    have h3 : (List.dropWhile pyIsSpace t).length ≤ t.length :=
      (List.dropWhile_sublist pyIsSpace).length_le
    have h4 : (List.dropWhile pyIsSpace t).length = t.length + 1 := by
      rw [heq2]
      simp
    omega

lemma pyStrip_fixed_parts {l : List Char} (h : pyStrip l = l) :
    l.dropWhile pyIsSpace = l ∧ l.reverse.dropWhile pyIsSpace = l.reverse := by
  have hlen : (pyStrip l).length = l.length := by rw [h]
  unfold pyStrip at hlen
  rw [List.length_reverse] at hlen
  have h1 : ((l.dropWhile pyIsSpace).reverse.dropWhile pyIsSpace).length ≤
      (l.dropWhile pyIsSpace).reverse.length :=
    (List.dropWhile_sublist pyIsSpace).length_le
  have h2 : (l.dropWhile pyIsSpace).length ≤ l.length :=
    (List.dropWhile_sublist pyIsSpace).length_le
  rw [List.length_reverse] at h1
  have hd1 : (l.dropWhile pyIsSpace).length = l.length := by omega
  have heq1 : l.dropWhile pyIsSpace = l := dropWhile_eq_of_length_eq hd1
  refine ⟨heq1, ?_⟩
  apply dropWhile_eq_of_length_eq
  rw [heq1] at hlen h1
  rw [List.length_reverse]
  omega

lemma dropWhile_fixed_head {p : Char → Bool} {h : Char} {t : List Char}
    (hfix : (h :: t).dropWhile p = h :: t) : p h = false := by
  by_cases hp : p h = true
  · rw [List.dropWhile_cons, if_pos hp] at hfix
    have hlen := congrArg List.length hfix
    have hle := (@List.dropWhile_sublist _ t p).length_le
    simp only [List.length_cons] at hlen
    omega
  · simpa using hp

lemma pyStrip_append_newline (core : List Char) (hne : core ≠ [])
    (hfix : pyStrip core = core) : pyStrip (core ++ ['\n']) = core := by
  obtain ⟨hdrop, hdropr⟩ := pyStrip_fixed_parts hfix
  have h1 : (core ++ ['\n']).dropWhile pyIsSpace = core ++ ['\n'] := by
    rcases core with _ | ⟨h, t⟩
    · exact absurd rfl hne
    · have hh : pyIsSpace h = false := dropWhile_fixed_head hdrop
      rw [List.cons_append, List.dropWhile_cons, if_neg (by simp [hh])]
  unfold pyStrip
  rw [h1, List.reverse_append]
  simp only [List.reverse_cons, List.reverse_nil, List.nil_append, List.singleton_append]
  rw [List.dropWhile_cons, if_pos (by decide : pyIsSpace '\n' = true)]
  rw [hdropr, List.reverse_reverse]

lemma pyStrip_append_crlf (core : List Char) (hne : core ≠ [])
    (hfix : pyStrip core = core) : pyStrip (core ++ ['\r', '\n']) = core := by
  obtain ⟨hdrop, hdropr⟩ := pyStrip_fixed_parts hfix
  have h1 : (core ++ ['\r', '\n']).dropWhile pyIsSpace = core ++ ['\r', '\n'] := by
    rcases core with _ | ⟨h, t⟩
    · exact absurd rfl hne
    · have hh : pyIsSpace h = false := dropWhile_fixed_head hdrop
      rw [List.cons_append, List.dropWhile_cons, if_neg (by simp [hh])]
  unfold pyStrip
  rw [h1, List.reverse_append]
  simp only [List.reverse_cons, List.reverse_nil, List.nil_append, List.cons_append]
  rw [List.dropWhile_cons, if_pos (by decide : pyIsSpace '\n' = true)]
  rw [List.dropWhile_cons, if_pos (by decide : pyIsSpace '\r' = true)]
  rw [hdropr, List.reverse_reverse]

/-- Amended claim C9: the session-less line count and the parser record
    count agree for every nonempty CSV text in which no newline lies
    inside a quoted field, every carriage return is immediately followed
    by a newline (CRLF pairs only — the condition under which this
    newline-terminated parser model is record-count-faithful to the
    Python reader, which ends a record at a carriage return outside
    quotes), and whose ends carry no whitespace beyond one optional
    final newline or CRLF.  A newline embedded in a quoted field (the
    counterexample) breaks the equality, as does boundary whitespace
    whose removal by `strip()` drops a whole line. -/
theorem row_counts_agree_without_quoted_newlines (cs : List Char)
    (hne : cs ≠ []) (hq : quotedNlFree cs = true)
    (_hcr : crBeforeNl cs = true)
    (hb : pyStrip cs = cs ∨
      ∃ core, core ≠ [] ∧ pyStrip core = core ∧
        (cs = core ++ ['\n'] ∨ cs = core ++ ['\r', '\n'])) :
    sessionlessRowCount cs = parserRowCount cs := by
  unfold sessionlessRowCount parserRowCount parseCsv
  rw [parseCsvAux_newline_count cs CsvMode.atRecordStart hq [] [] []]
  rcases hb with hb | ⟨core, hcne, hcfix, hform⟩
  · rw [hb, pySplit_length]
    have hlast := pyStrip_fixed_no_last_newline hb
    rw [if_neg (fun h => h.elim (fun h1 => hne h1.1) hlast)]
    simp only [List.length_nil]
    push_cast
    omega
  · rcases hform with rfl | rfl
    · rw [pyStrip_append_newline core hcne hcfix, pySplit_length]
      rw [if_pos (Or.inr (List.getLast?_concat core))]
      rw [List.count_append,
        show (['\n'] : List Char).count '\n' = 1 from rfl]
      simp only [List.length_nil]
      push_cast
      omega
    · rw [pyStrip_append_crlf core hcne hcfix, pySplit_length]
      have hlast : (core ++ ['\r', '\n']).getLast? = some '\n' := by
        rw [show core ++ ['\r', '\n'] = (core ++ ['\r']) ++ ['\n'] by simp]
        exact List.getLast?_concat _
      rw [if_pos (Or.inr hlast)]
      rw [List.count_append,
        show (['\r', '\n'] : List Char).count '\n' = 1 from rfl]
      simp only [List.length_nil]
      push_cast
      omega

/-- Witness for the amended C9 at a plain two-line text, a text with a
    trailing newline, a CRLF-terminated text, and a text with a quoted
    (newline-free) field. -/
theorem row_counts_agree_without_quoted_newlines_witness :
    sessionlessRowCount ("a,b\n1,2").data = parserRowCount ("a,b\n1,2").data ∧
    sessionlessRowCount ("a,b\n1,2\n").data = parserRowCount ("a,b\n1,2\n").data ∧
    sessionlessRowCount ("a,b\r\n1,2\r\n").data =
      parserRowCount ("a,b\r\n1,2\r\n").data ∧
    sessionlessRowCount (quoteChar :: ("x").data ++ quoteChar :: (",y\n1,2").data) =
      parserRowCount (quoteChar :: ("x").data ++ quoteChar :: (",y\n1,2").data) :=
  ⟨row_counts_agree_without_quoted_newlines ("a,b\n1,2").data
      (by decide) (by decide) (by decide) (Or.inl (by decide)),
    row_counts_agree_without_quoted_newlines ("a,b\n1,2\n").data
      (by decide) (by decide) (by decide)
      (Or.inr ⟨("a,b\n1,2").data, by decide, by decide, Or.inl (by decide)⟩),
    row_counts_agree_without_quoted_newlines ("a,b\r\n1,2\r\n").data
      (by decide) (by decide) (by decide)
      (Or.inr ⟨("a,b\r\n1,2").data, by decide, by decide, Or.inr (by decide)⟩),
    row_counts_agree_without_quoted_newlines
      (quoteChar :: ("x").data ++ quoteChar :: (",y\n1,2").data)
      (by decide) (by decide) (by decide) (Or.inl (by decide))⟩

/-- A stored Dataset Record (the value of `DATASETS[dataset_id]`).  The
    source stores the storage-key ciphertext of the plaintext and its
    SHA-256 hex digest; both are functions of the plaintext computed by
    the external cryptography library, so the record keeps the plaintext
    in their place. -/
structure DatasetRecord where
  sessionId : Option Nat
  content : List Char
  filename : List Char
  fileSize : Nat
  tableName : Option (List Char)
  rowCount : Int
deriving DecidableEq, Repr

/-- In-memory server state: the dataset registry `DATASETS`, the set of
    session ids holding a key in `SESSION_KEYS` (key bytes are opaque),
    and the per-session sqlite containers, each listed with the table
    names of its loaded datasets (the reserved metadata table is
    implicit). -/
structure TeeState where
  datasets : List (Nat × DatasetRecord)
  sessionKeys : List Nat
  containers : List (Nat × List (List Char))
deriving DecidableEq, Repr

/-- Model of a Python dict assignment `m[k] = v`: the new binding
    shadows any earlier one under `List.lookup`. -/
def mapSet {α : Type} (k : Nat) (v : α) (m : List (Nat × α)) : List (Nat × α) :=
  (k, v) :: m

/-- One status callback posted by `notify_control_plane`. -/
structure Notification where
  entityType : String
  entityId : Nat
  status : String
deriving DecidableEq, Repr

/-- An upload request after JSON field extraction.  `payload` is the
    outcome of steps 1 to 3 (RSA-OAEP key unwrap, AES-GCM decryption and
    UTF-8 decoding, performed outside the modelled text): an error for a
    failure in any of those steps, otherwise the decoded CSV text. -/
structure UploadRequest where
  datasetId : Nat
  sessionId : Option Nat
  datasetName : List Char
  filename : List Char
  fileSize : Nat
  payload : Except String (List Char)

/-- Result of the upload endpoint: HTTP response, successor state, and
    the notifications posted while handling the request. -/
structure UploadOutput where
  response : Except String (Nat × List Char × Int)
  state : TeeState
  notifications : List Notification

/-- Python truthiness of the optional `session_id` (`if session_id:`):
    absent and zero are both falsy. -/
def sessionTruthy : Option Nat → Bool
  | none => false
  | some s => s != 0

/-- Model of `QueryExecutor.load_dataset`: ensure the session container
    exists, parse the CSV, reject an empty header, reject duplicate
    column names after sanitization, reject an empty row set, reject a
    derived table name already present in the container (conflict, not
    overwrite), reject rows whose arity differs from the header (the
    sqlite bulk insert raises on a binding-count mismatch), otherwise
    add the table.  Failures up to and including the table-exists check
    leave the container unchanged (they are raised before any create);
    the arity failure keeps the new, empty table, because the CREATE
    TABLE of the source runs in sqlite3 autocommit mode and persists
    before executemany raises, while the uncommitted inserts and
    metadata rows roll back on close. -/
def loadDataset (st : TeeState) (sessionId datasetId : Nat)
    (datasetName csv : List Char) :
    Except String (List Char × Int) × TeeState :=
  let st1 :=
    match st.containers.lookup sessionId with
    | some _ => st
    | none => { st with containers := mapSet sessionId [] st.containers }
  match parseCsv csv with
  | [] => (.error "CSV file is empty or has no header", st1)
  | headers :: rows =>
    if headers = [] then (.error "CSV file is empty or has no header", st1)
    else
      let sanitized := headers.map sanitizeTableName
      if ¬ sanitized.Nodup then
        (.error "CSV contains duplicate column names after sanitization", st1)
      else
        let tableName := deriveTableName datasetId datasetName
        if rows = [] then (.error "CSV file contains no data rows", st1)
        else
          let tables := (st1.containers.lookup sessionId).getD []
          if tableName ∈ tables then
            (.error "Table already exists in session database", st1)
          else if rows.any (fun r => r.length != headers.length) then
            (.error "Incorrect number of bindings supplied",
              { st1 with containers := mapSet sessionId (tables ++ [tableName]) st1.containers })
          else
            (.ok (tableName, (rows.length : Int)),
              { st1 with containers := mapSet sessionId (tables ++ [tableName]) st1.containers })

/-- The session-less branch of `upload_dataset`: fresh dataset-scoped
    key, no table load, row count by newline arithmetic, record stored
    by dict assignment (overwriting any record under the same id). -/
def independentUpload (st : TeeState) (req : UploadRequest) (csv : List Char) :
    UploadOutput :=
  let rc := sessionlessRowCount csv
  let record : DatasetRecord :=
    ⟨req.sessionId, csv, req.filename, req.fileSize, none, rc⟩
  ⟨.ok (req.datasetId, csv, rc),
    { st with datasets := mapSet req.datasetId record st.datasets }, []⟩

/-- The session-bound load of `upload_dataset`: get-or-create the
    session key (`get_or_create_session_key`), delegate to
    `QueryExecutor.load_dataset`, and on success store the record with
    its table name by dict assignment. -/
def uploadLoadStage (st : TeeState) (req : UploadRequest) (csv : List Char)
    (s : Nat) : UploadOutput :=
  match loadDataset
      (if s ∈ st.sessionKeys then st
        else { st with sessionKeys := s :: st.sessionKeys })
      s req.datasetId req.datasetName csv with
  | (.error e, st2) => ⟨.error e, st2, []⟩
  | (.ok (tname, rc), st2) =>
    let record : DatasetRecord :=
      ⟨req.sessionId, csv, req.filename, req.fileSize, some tname, rc⟩
    ⟨.ok (req.datasetId, csv, rc),
      { st2 with datasets := mapSet req.datasetId record st2.datasets }, []⟩

/-- The `if session_id:` branch of `upload_dataset` (Python truthiness:
    absent and zero both take the independent path). -/
def uploadSessionStage (st : TeeState) (req : UploadRequest) (csv : List Char) :
    UploadOutput :=
  match req.sessionId with
  | none => independentUpload st req csv
  | some s =>
    if s = 0 then independentUpload st req csv
    else uploadLoadStage st req csv s

/-- The CSV header validation of `upload_dataset` (lines 305-322 of the
    source): nonempty header record and at least one data record,
    checked before any storage. -/
def uploadCsvStage (st : TeeState) (req : UploadRequest) (csv : List Char) :
    UploadOutput :=
  match parseCsv csv with
  | [] => ⟨.error "CSV file is empty or malformed", st, []⟩
  | header :: dataRows =>
    if header = [] then ⟨.error "CSV file must have a header row", st, []⟩
    else if dataRows = [] then
      ⟨.error "CSV file must contain at least one data row", st, []⟩
    else uploadSessionStage st req csv

/-- Model of the `/upload` handler `upload_dataset` from the decrypted
    payload onward.  Every return path of the source, success or
    failure, answers over HTTP without calling `notify_control_plane`,
    so every branch emits no notification. -/
def uploadModel (st : TeeState) (req : UploadRequest) : UploadOutput :=
  match req.payload with
  | .error e => ⟨.error e, st, []⟩
  | .ok csv => uploadCsvStage st req csv

lemma uploadModel_payload_error {st : TeeState} {req : UploadRequest} {e : String}
    (h : req.payload = .error e) : uploadModel st req = ⟨.error e, st, []⟩ := by
  unfold uploadModel
  rw [h]

lemma uploadModel_payload_ok {st : TeeState} {req : UploadRequest} {csv : List Char}
    (h : req.payload = .ok csv) : uploadModel st req = uploadCsvStage st req csv := by
  unfold uploadModel
  rw [h]

lemma uploadCsvStage_nil {st : TeeState} {req : UploadRequest} {csv : List Char}
    (hp : parseCsv csv = []) :
    uploadCsvStage st req csv = ⟨.error "CSV file is empty or malformed", st, []⟩ := by
  unfold uploadCsvStage
  rw [hp]

lemma uploadCsvStage_cons {st : TeeState} {req : UploadRequest} {csv : List Char}
    {header : List (List Char)} {dataRows : List (List (List Char))}
    (hp : parseCsv csv = header :: dataRows) :
    uploadCsvStage st req csv =
      if header = [] then ⟨.error "CSV file must have a header row", st, []⟩
      else if dataRows = [] then
        ⟨.error "CSV file must contain at least one data row", st, []⟩
      else uploadSessionStage st req csv := by
  unfold uploadCsvStage
  rw [hp]

lemma uploadSessionStage_none {st : TeeState} {req : UploadRequest} {csv : List Char}
    (h : req.sessionId = none) :
    uploadSessionStage st req csv = independentUpload st req csv := by
  unfold uploadSessionStage
  rw [h]

lemma uploadSessionStage_some {st : TeeState} {req : UploadRequest} {csv : List Char}
    {s : Nat} (h : req.sessionId = some s) :
    uploadSessionStage st req csv =
      if s = 0 then independentUpload st req csv
      else uploadLoadStage st req csv s := by
  unfold uploadSessionStage
  rw [h]

lemma uploadLoadStage_error {st st2 : TeeState} {req : UploadRequest}
    {csv : List Char} {s : Nat} {e : String}
    (hld : loadDataset
      (if s ∈ st.sessionKeys then st
        else { st with sessionKeys := s :: st.sessionKeys })
      s req.datasetId req.datasetName csv = (.error e, st2)) :
    uploadLoadStage st req csv s = ⟨.error e, st2, []⟩ := by
  unfold uploadLoadStage
  rw [hld]

lemma uploadLoadStage_ok {st st2 : TeeState} {req : UploadRequest}
    {csv : List Char} {s : Nat} {tname : List Char} {rc : Int}
    (hld : loadDataset
      (if s ∈ st.sessionKeys then st
        else { st with sessionKeys := s :: st.sessionKeys })
      s req.datasetId req.datasetName csv = (.ok (tname, rc), st2)) :
    uploadLoadStage st req csv s =
      ⟨.ok (req.datasetId, csv, rc),
        { st2 with datasets := mapSet req.datasetId (⟨req.sessionId, csv, req.filename, req.fileSize, some tname, rc⟩ : DatasetRecord) st2.datasets }, []⟩ := by
  unfold uploadLoadStage
  rw [hld]

/-- An `/execute` request after JSON field extraction; an omitted
    `dataset_ids` arrives as the empty list (`data.get` default). -/
structure ExecRequest where
  queryId : Nat
  sessionId : Option Nat
  queryText : List Char
  datasetIds : List Nat

/-- Outcome stages of `/execute`: the 403 ownership rejection, a
    pre-engine validation rejection from `execute_query`, or handing the
    statement to the sqlite engine. -/
inductive ExecOutcome
  | authError (datasetId : Nat)
  | valError (msg : String)
  | engineRun
deriving DecidableEq, Repr

/-- `hay.startsWith pat` on character lists (Python `str.startswith`). -/
def startsWithL : List Char → List Char → Bool
  | _, [] => true
  | [], _ :: _ => false
  | c :: cs, p :: ps => c = p && startsWithL cs ps

/-- Python substring containment `pat in hay`. -/
def containsSub : List Char → List Char → Bool
  | [], pat => startsWithL [] pat
  | c :: rest, pat => startsWithL (c :: rest) pat || containsSub rest pat

/-- The keyword `SELECT`. -/
def selectLit : List Char := ['S', 'E', 'L', 'E', 'C', 'T']

/-- The fixed keyword denylist of `QueryExecutor.execute_query`. -/
def denylist : List (List Char) :=
  [("ATTACH").data, ("DETACH").data, ("PRAGMA").data,
    ("VACUUM").data, ("REINDEX").data]

/-- The pre-engine checks of `QueryExecutor.execute_query`: the session
    database must exist, the statement stripped and uppercased must
    begin with `SELECT`, and no denylisted keyword may occur as a
    substring of the uppercased statement.  Only when all pass does the
    source hand the statement to sqlite. -/
def validateQuery (dbExists : Bool) (q : List Char) : Except String Unit :=
  if ¬ dbExists then .error "No database found for session"
  else if ¬ startsWithL ((pyStrip q).map pyUpperChar) selectLit then
    .error "Only SELECT queries are allowed"
  else
    match denylist.find? (fun kw => containsSub ((pyStrip q).map pyUpperChar) kw) with
    | some _ => .error "Query contains forbidden keyword"
    | none => .ok ()

/-- Whether the session database file exists.  The source derives the
    path from the raw session id; only session-bound loads create such a
    file, so a request without a session id never finds one. -/
def containerExists (st : TeeState) (sessionId : Option Nat) : Bool :=
  match sessionId with
  | some s => (st.containers.lookup s).isSome
  | none => false

/-- The per-dataset ownership test of `/execute`: the id must be present
    in the registry and its stored session id must equal the one the
    caller supplied (`not dataset or dataset[...] != session_id`). -/
def authFailure (st : TeeState) (sessionId : Option Nat) (d : Nat) : Bool :=
  match st.datasets.lookup d with
  | none => true
  | some record => record.sessionId != sessionId

/-- Model of the `/execute` handler `execute_query`: walk the supplied
    dataset ids and answer 403 at the first ownership failure; only then
    run the pre-engine validation and, if it passes, hand the statement
    to the engine. -/
def executeModel (st : TeeState) (req : ExecRequest) : ExecOutcome :=
  match req.datasetIds.find? (fun d => authFailure st req.sessionId d) with
  | some d => .authError d
  | none =>
    match validateQuery (containerExists st req.sessionId) req.queryText with
    | .error m => .valError m
    | .ok _ => .engineRun

/-- Claim C4: the pre-engine validation accepts exactly the requests
    whose session database exists, whose statement (trimmed, case
    folded) begins with `SELECT`, and which contain no denylisted
    keyword; `SELECT 1` against an existing database is accepted; and
    the execute endpoint reaches the engine only when the validation
    accepted. -/
theorem query_safety_validation (dbExists : Bool) (q : List Char)
    (st : TeeState) (req : ExecRequest) :
    (validateQuery dbExists q = .ok () ↔
      (dbExists = true ∧
        startsWithL ((pyStrip q).map pyUpperChar) selectLit = true ∧
        ∀ kw ∈ denylist, containsSub ((pyStrip q).map pyUpperChar) kw = false)) ∧
    validateQuery true ("SELECT 1").data = .ok () ∧
    (executeModel st req = .engineRun →
      validateQuery (containerExists st req.sessionId) req.queryText = .ok ()) := by
  refine ⟨⟨?_, ?_⟩, by rfl, ?_⟩
  · intro h
    by_cases hdb : dbExists = true
    · by_cases hsel : startsWithL ((pyStrip q).map pyUpperChar) selectLit = true
      · refine ⟨hdb, hsel, ?_⟩
        intro kw hkw
        unfold validateQuery at h
        rw [if_neg (not_not_intro hdb), if_neg (not_not_intro hsel)] at h
        rcases hf : denylist.find? (fun kw => containsSub ((pyStrip q).map pyUpperChar) kw)
          with _ | kw2
        · have := List.find?_eq_none.mp hf kw hkw
          simpa using this
        · rw [hf] at h
          simp at h
      · unfold validateQuery at h
        rw [if_neg (not_not_intro hdb), if_pos hsel] at h
        simp at h
    · unfold validateQuery at h
      rw [if_pos hdb] at h
      simp at h
  · rintro ⟨hdb, hsel, hkw⟩
    unfold validateQuery
    rw [if_neg (not_not_intro hdb), if_neg (not_not_intro hsel)]
    have hf : denylist.find? (fun kw => containsSub ((pyStrip q).map pyUpperChar) kw)
        = none :=
      List.find?_eq_none.mpr (fun kw hkw2 => by simp [hkw kw hkw2])
    rw [hf]
  · intro h
    unfold executeModel at h
    rcases hf : req.datasetIds.find? (fun d => authFailure st req.sessionId d) with _ | d
    · rw [hf] at h
      rcases hv : validateQuery (containerExists st req.sessionId) req.queryText with m | u
      · rw [hv] at h
        simp at h
      · cases u
        rfl
    · rw [hf] at h
      simp at h

/-- Witness for C4 at concrete inputs: a missing database, a non-SELECT
    statement, a denylisted keyword, and the accepted `SELECT 1`. -/
theorem query_safety_validation_witness :
    validateQuery true ("SELECT 1").data = .ok () ∧
    validateQuery false ("SELECT 1").data ≠ .ok () ∧
    validateQuery true ("DROP TABLE x").data ≠ .ok () ∧
    validateQuery true ("SELECT 1; ATTACH DATABASE y").data ≠ .ok () := by
  refine ⟨(query_safety_validation true ("SELECT 1").data ⟨[], [], []⟩
    ⟨0, none, [], []⟩).2.1, ?_, ?_, ?_⟩
  · intro h
    have := ((query_safety_validation false ("SELECT 1").data ⟨[], [], []⟩
      ⟨0, none, [], []⟩).1.mp h).1
    simp at this
  · intro h
    have := ((query_safety_validation true ("DROP TABLE x").data ⟨[], [], []⟩
      ⟨0, none, [], []⟩).1.mp h).2.1
    simp [pyStrip, pyUpperChar, startsWithL, selectLit] at this
  · intro h
    have := ((query_safety_validation true ("SELECT 1; ATTACH DATABASE y").data ⟨[], [], []⟩
      ⟨0, none, [], []⟩).1.mp h).2.2 ("ATTACH").data (by simp [denylist])
    rw [show containsSub ((pyStrip ("SELECT 1; ATTACH DATABASE y").data).map pyUpperChar)
      (("ATTACH").data) = true from by decide] at this
    simp at this

/-- Claim C3: a dataset whose record is bound to session `a`, referenced
    in an execute request under a different session `b`, makes the
    endpoint answer with the 403 ownership rejection; by construction of
    `executeModel` that happens before the validation and before the
    engine is reached. -/
theorem session_isolation_enforced (st : TeeState) (req : ExecRequest)
    (ds a b : Nat) (r : DatasetRecord)
    (hlook : st.datasets.lookup ds = some r) (hra : r.sessionId = some a)
    (hreq : req.sessionId = some b) (hab : a ≠ b)
    (hmem : ds ∈ req.datasetIds) :
    ∃ d, executeModel st req = .authError d := by
  have hfail : authFailure st req.sessionId ds = true := by
    unfold authFailure
    rw [hlook]
    show (r.sessionId != req.sessionId) = true
    rw [hra, hreq]
    simp only [bne_iff_ne, ne_eq, Option.some.injEq]
    exact fun he => hab he
  have hsome : (req.datasetIds.find? (fun d => authFailure st req.sessionId d)).isSome :=
    List.find?_isSome.mpr ⟨ds, hmem, hfail⟩
  rcases Option.isSome_iff_exists.mp hsome with ⟨d, hd⟩
  refine ⟨d, ?_⟩
  unfold executeModel
  rw [hd]

/-- Witness for C3: dataset 5 bound to session 1, queried under
    session 2. -/
theorem session_isolation_enforced_witness :
    ∃ d, executeModel
      ⟨[(5, ⟨some 1, [], [], 0, some [], 1⟩)], [1], [(1, [])]⟩
      ⟨9, some 2, ("SELECT 1").data, [5]⟩ = .authError d :=
  session_isolation_enforced _ _ 5 1 2 ⟨some 1, [], [], 0, some [], 1⟩
    (by rfl) (by rfl) (by rfl) (by decide) (by decide)

/-- Claim C10: the 403 ownership rejection fires exactly when some id in
    the supplied list is missing from the registry or bound to another
    session; with an empty (or omitted) list no ownership rejection is
    possible and a request passing the pre-engine validation reaches the
    engine. -/
theorem ownership_check_only_listed (st : TeeState) (req : ExecRequest) :
    ((∃ d, executeModel st req = .authError d) ↔
      (∃ d ∈ req.datasetIds, st.datasets.lookup d = none ∨
        ∃ r, st.datasets.lookup d = some r ∧ r.sessionId ≠ req.sessionId)) ∧
    (req.datasetIds = [] →
      (∀ d, executeModel st req ≠ .authError d) ∧
      (validateQuery (containerExists st req.sessionId) req.queryText = .ok () →
        executeModel st req = .engineRun)) := by
  have hiff : ∀ d, authFailure st req.sessionId d = true ↔
      (st.datasets.lookup d = none ∨
        ∃ r, st.datasets.lookup d = some r ∧ r.sessionId ≠ req.sessionId) := by
    intro d
    unfold authFailure
    rcases h : st.datasets.lookup d with _ | r
    · simp
    · simp [bne_iff_ne]
  constructor
  · constructor
    · rintro ⟨d, hd⟩
      unfold executeModel at hd
      rcases hf : req.datasetIds.find? (fun d => authFailure st req.sessionId d) with _ | d0
      · rw [hf] at hd
        rcases hv : validateQuery (containerExists st req.sessionId) req.queryText with m | u
        · rw [hv] at hd
          simp at hd
        · rw [hv] at hd
          simp at hd
      · exact ⟨d0, List.mem_of_find?_eq_some hf, (hiff d0).mp (List.find?_some hf)⟩
    · rintro ⟨d, hmem, hprop⟩
      have hsome : (req.datasetIds.find? (fun d => authFailure st req.sessionId d)).isSome :=
        List.find?_isSome.mpr ⟨d, hmem, (hiff d).mpr hprop⟩
      rcases Option.isSome_iff_exists.mp hsome with ⟨d1, hd1⟩
      refine ⟨d1, ?_⟩
      unfold executeModel
      rw [hd1]
  · intro hempty
    have hf : req.datasetIds.find? (fun d => authFailure st req.sessionId d) = none := by
      rw [hempty]
      rfl
    constructor
    · intro d hd
      unfold executeModel at hd
      rw [hf] at hd
      rcases hv : validateQuery (containerExists st req.sessionId) req.queryText with m | u
      · rw [hv] at hd
        simp at hd
      · rw [hv] at hd
        simp at hd
    · intro hok
      unfold executeModel
      rw [hf, hok]

/-- Witness for C10: an empty dataset-id list with an existing container
    reaches the engine, and a list naming an unregistered id yields the
    ownership rejection. -/
theorem ownership_check_only_listed_witness :
    executeModel ⟨[], [1], [(1, [])]⟩ ⟨9, some 1, ("SELECT 1").data, []⟩ =
      .engineRun ∧
    (∃ d, executeModel ⟨[], [1], [(1, [])]⟩ ⟨9, some 1, ("SELECT 1").data, [4]⟩ =
      .authError d) :=
  ⟨((ownership_check_only_listed ⟨[], [1], [(1, [])]⟩
      ⟨9, some 1, ("SELECT 1").data, []⟩).2 rfl).2 (by rfl),
    (ownership_check_only_listed ⟨[], [1], [(1, [])]⟩
      ⟨9, some 1, ("SELECT 1").data, [4]⟩).1.mpr ⟨4, by decide, Or.inl (by rfl)⟩⟩

/-- Claim C1: the upload handler answers every request, success or
    failure, without posting anything to the Status Notifier — no branch
    of `upload_dataset` calls `notify_control_plane`.  In particular a
    failed key unwrap (dataset 7 below) returns an error response and
    reports nothing. -/
theorem upload_never_notifies (st : TeeState) (req : UploadRequest) :
    (uploadModel st req).notifications = [] ∧
    (uploadModel ⟨[], [], []⟩
      ⟨7, none, ("d").data, ("f").data, 1, .error "Decryption failed"⟩).response =
      .error "Decryption failed" ∧
    (uploadModel ⟨[], [], []⟩
      ⟨7, none, ("d").data, ("f").data, 1, .error "Decryption failed"⟩).notifications = [] := by
  refine ⟨?_, rfl, rfl⟩
  unfold uploadModel uploadCsvStage uploadSessionStage uploadLoadStage independentUpload
  repeat' (first | rfl | split)

lemma loadDataset_conflict (st : TeeState) (s did : Nat) (name csv : List Char)
    (tables : List (List Char)) (res : Except String (List Char × Int))
    (st2 : TeeState)
    (hcont : st.containers.lookup s = some tables)
    (htab : deriveTableName did name ∈ tables)
    (hld : loadDataset st s did name csv = (res, st2)) :
    (∀ v, res ≠ .ok v) ∧ st2 = st := by
  have key : ∃ msg, loadDataset st s did name csv = (.error msg, st) := by
    rcases hp : parseCsv csv with _ | ⟨headers, rows⟩
    · exact ⟨"CSV file is empty or has no header", by simp [loadDataset, hcont, hp]⟩
    · by_cases h1 : headers = []
      · exact ⟨"CSV file is empty or has no header",
          by simp [loadDataset, hcont, hp, h1]⟩
      · by_cases h2 : (headers.map sanitizeTableName).Nodup
        · by_cases h3 : rows = []
          · exact ⟨"CSV file contains no data rows",
              by simp [loadDataset, hcont, hp, h1, h2, h3]⟩
          · exact ⟨"Table already exists in session database",
              by simp [loadDataset, hcont, hp, h1, h2, h3, htab]⟩
        · exact ⟨"CSV contains duplicate column names after sanitization",
            by simp [loadDataset, hcont, hp, h1, h2]⟩
  obtain ⟨msg, key⟩ := key
  rw [key] at hld
  injection hld with hres hst
  subst hres
  subst hst
  exact ⟨by simp, rfl⟩

lemma loadDataset_ok_shape (st : TeeState) (s did : Nat) (name csv : List Char)
    (v : List Char × Int) (st2 : TeeState)
    (h : loadDataset st s did name csv = (.ok v, st2)) :
    ∃ headers rows, parseCsv csv = headers :: rows ∧ headers ≠ [] ∧ rows ≠ [] ∧
      (headers.map sanitizeTableName).Nodup := by
  rcases hp : parseCsv csv with _ | ⟨headers, rows⟩
  · exfalso
    simp [loadDataset, hp] at h
  · refine ⟨headers, rows, rfl, ?_⟩
    by_cases h1 : headers = []
    · exfalso
      simp [loadDataset, hp, h1] at h
    · by_cases h2 : (headers.map sanitizeTableName).Nodup
      · by_cases h3 : rows = []
        · exfalso
          simp [loadDataset, hp, h1, h2, h3] at h
        · exact ⟨h1, h3, h2⟩
      · exfalso
        simp [loadDataset, hp, h1, h2] at h

/-- Amended claim C2: with a session-bound request whose derived table
    name already sits in the session container, the upload is rejected
    and both the dataset registry and the containers are unchanged; the
    session-less path (shown in the counterexample) has no conflict
    check at all and overwrites. -/
theorem reingestion_conflict_only_on_table_collision (st : TeeState)
    (req : UploadRequest) (s : Nat) (csv : List Char)
    (tables : List (List Char))
    (hsid : req.sessionId = some s) (hs0 : s ≠ 0)
    (hpay : req.payload = .ok csv)
    (hcont : st.containers.lookup s = some tables)
    (htab : deriveTableName req.datasetId req.datasetName ∈ tables) :
    (∃ e, (uploadModel st req).response = .error e) ∧
    (uploadModel st req).state.datasets = st.datasets ∧
    (uploadModel st req).state.containers = st.containers := by
  rw [uploadModel_payload_ok hpay]
  rcases hp : parseCsv csv with _ | ⟨header, dataRows⟩
  · rw [uploadCsvStage_nil hp]
    exact ⟨⟨_, rfl⟩, rfl, rfl⟩
  · rw [uploadCsvStage_cons hp]
    by_cases h1 : header = []
    · rw [if_pos h1]
      exact ⟨⟨_, rfl⟩, rfl, rfl⟩
    · rw [if_neg h1]
      by_cases h2 : dataRows = []
      · rw [if_pos h2]
        exact ⟨⟨_, rfl⟩, rfl, rfl⟩
      · rw [if_neg h2, uploadSessionStage_some hsid, if_neg hs0]
        set st1 := if s ∈ st.sessionKeys then st
          else { st with sessionKeys := s :: st.sessionKeys } with hst1def
        have hc1 : st1.containers = st.containers := by
          rw [hst1def]
          split <;> rfl
        have hd1 : st1.datasets = st.datasets := by
          rw [hst1def]
          split <;> rfl
        have hcont1 : st1.containers.lookup s = some tables := by
          rw [hc1]
          exact hcont
        rcases hld : loadDataset st1 s req.datasetId req.datasetName csv with ⟨res, st2⟩
        obtain ⟨hnok, hst2⟩ := loadDataset_conflict st1 s req.datasetId
          req.datasetName csv tables res st2 hcont1 htab hld
        rcases res with e | v
        · have he := @uploadLoadStage_error st st2 req csv s e
            (by rw [← hst1def]; exact hld)
          rw [he]
          subst hst2
          exact ⟨⟨e, rfl⟩, by rw [hd1], by rw [hc1]⟩
        · exact absurd rfl (hnok v)

/-- Witness for the amended C2: a session-bound re-ingestion whose
    derived table name is already in the container is rejected with the
    registry and containers untouched. -/
theorem reingestion_conflict_only_on_table_collision_witness :
    (∃ e, (uploadModel ⟨[], [7], [(7, [deriveTableName 3 ("d").data])]⟩
      ⟨3, some 7, ("d").data, ("f").data, 1, .ok ("h\n1").data⟩).response = .error e) ∧
    (uploadModel ⟨[], [7], [(7, [deriveTableName 3 ("d").data])]⟩
      ⟨3, some 7, ("d").data, ("f").data, 1, .ok ("h\n1").data⟩).state.datasets = [] ∧
    (uploadModel ⟨[], [7], [(7, [deriveTableName 3 ("d").data])]⟩
      ⟨3, some 7, ("d").data, ("f").data, 1, .ok ("h\n1").data⟩).state.containers =
      [(7, [deriveTableName 3 ("d").data])] :=
  reingestion_conflict_only_on_table_collision
    ⟨[], [7], [(7, [deriveTableName 3 ("d").data])]⟩
    ⟨3, some 7, ("d").data, ("f").data, 1, .ok ("h\n1").data⟩
    7 ("h\n1").data [deriveTableName 3 ("d").data]
    rfl (by decide) rfl rfl (List.mem_singleton.mpr rfl)

/-- The record stored by the first session-less ingestion of dataset 1
    in the C2 counterexample. -/
def recOldC2 : DatasetRecord := ⟨none, ("h\n1").data, ("f").data, 3, none, 1⟩

/-- The record found under dataset 1 after re-ingesting the same id. -/
def recNewC2 : DatasetRecord := ⟨none, ("h\n2").data, ("f").data, 3, none, 1⟩

/-- Counterexample to claim C2: on the session-less path a second
    ingestion carrying an identifier that already has a stored record is
    not rejected — it succeeds and replaces the record. -/
theorem sessionless_reingestion_overwrites :
    (⟨[(1, recOldC2)], [], []⟩ : TeeState).datasets.lookup 1 = some recOldC2 ∧
    (uploadModel ⟨[(1, recOldC2)], [], []⟩
      ⟨1, none, ("d").data, ("f").data, 3, .ok ("h\n2").data⟩).response =
      .ok (1, ("h\n2").data, 1) ∧
    (uploadModel ⟨[(1, recOldC2)], [], []⟩
      ⟨1, none, ("d").data, ("f").data, 3, .ok ("h\n2").data⟩).state.datasets.lookup 1 =
      some recNewC2 ∧
    recNewC2 ≠ recOldC2 :=
  ⟨rfl, rfl, rfl, by decide⟩

/-- Amended claim C5: a stored record implies the plaintext parsed with
    a nonempty header and at least one data row on every path, but
    uniqueness of the sanitized header fields is enforced only on the
    session-bound path (inside the physical load); the session-less path
    never checks it. -/
theorem structural_validation_scope (st : TeeState) (req : UploadRequest)
    (csv : List Char) (v : Nat × List Char × Int)
    (hpay : req.payload = .ok csv)
    (hok : (uploadModel st req).response = .ok v) :
    ∃ header dataRows, parseCsv csv = header :: dataRows ∧ header ≠ [] ∧
      dataRows ≠ [] ∧
      (sessionTruthy req.sessionId = true →
        (header.map sanitizeTableName).Nodup) := by
  rw [uploadModel_payload_ok hpay] at hok
  rcases hp : parseCsv csv with _ | ⟨header, dataRows⟩
  · rw [uploadCsvStage_nil hp] at hok
    simp at hok
  · refine ⟨header, dataRows, rfl, ?_⟩
    rw [uploadCsvStage_cons hp] at hok
    by_cases h1 : header = []
    · rw [if_pos h1] at hok
      simp at hok
    · by_cases h2 : dataRows = []
      · rw [if_neg h1, if_pos h2] at hok
        simp at hok
      · refine ⟨h1, h2, ?_⟩
        intro htruthy
        rw [if_neg h1, if_neg h2] at hok
        rcases hsid : req.sessionId with _ | s
        · rw [hsid] at htruthy
          simp [sessionTruthy] at htruthy
        · rw [hsid] at htruthy
          have hs0 : s ≠ 0 := by simpa [sessionTruthy] using htruthy
          rw [uploadSessionStage_some hsid, if_neg hs0] at hok
          rcases hld : loadDataset
              (if s ∈ st.sessionKeys then st
                else { st with sessionKeys := s :: st.sessionKeys })
              s req.datasetId req.datasetName csv with ⟨res, st2⟩
          rcases res with e | ⟨tname, rc⟩
          · rw [uploadLoadStage_error hld] at hok
            simp at hok
          · obtain ⟨hs2, rs2, hpeq, _, _, hnd⟩ :=
              loadDataset_ok_shape _ s req.datasetId req.datasetName csv
                (tname, rc) st2 hld
            rw [hp] at hpeq
            injection hpeq with e1 e2
            subst e1
            exact hnd

/-- Witness for the amended C5: a successful session-bound upload. -/
theorem structural_validation_scope_witness :
    ∃ header dataRows, parseCsv ("a,b\n1,2").data = header :: dataRows ∧
      header ≠ [] ∧ dataRows ≠ [] ∧
      (sessionTruthy (some 4) = true →
        (header.map sanitizeTableName).Nodup) :=
  structural_validation_scope ⟨[], [], []⟩
    ⟨21, some 4, ("d").data, ("f").data, 9, .ok ("a,b\n1,2").data⟩
    ("a,b\n1,2").data (21, ("a,b\n1,2").data, 1) rfl rfl

/-- Counterexample to claim C5: a session-less ingestion whose two
    header fields sanitize to the same identifier is accepted and the
    record is stored. -/
theorem duplicate_headers_accepted_sessionless :
    (uploadModel ⟨[], [], []⟩
      ⟨7, none, ("d").data, ("f").data, 3, .ok ("A,a\n1,2").data⟩).response =
      .ok (7, ("A,a\n1,2").data, 1) ∧
    ((uploadModel ⟨[], [], []⟩
      ⟨7, none, ("d").data, ("f").data, 3, .ok ("A,a\n1,2").data⟩).state.datasets.lookup
        7).isSome = true ∧
    ¬ (((parseCsv ("A,a\n1,2").data).headI).map sanitizeTableName).Nodup :=
  ⟨rfl, rfl, by decide⟩

/-- The CSV text of the C9 counterexample: a quoted field containing an
    embedded newline. -/
def badNewlineCsv : List Char :=
  ("a,b\n").data ++ quoteChar :: ("x\ny").data ++ quoteChar :: (",1").data

/-- Counterexample to claim C9: the same CSV text is accepted by both
    ingestion paths, the session-bound row count (CSV parser) is 1 and
    the session-less row count (newline arithmetic) is 2. -/
theorem row_counts_disagree_on_quoted_newline :
    (uploadModel ⟨[], [], []⟩
      ⟨21, some 4, ("d").data, ("f").data, 9, .ok badNewlineCsv⟩).response =
      .ok (21, badNewlineCsv, 1) ∧
    (uploadModel ⟨[], [], []⟩
      ⟨21, none, ("d").data, ("f").data, 9, .ok badNewlineCsv⟩).response =
      .ok (21, badNewlineCsv, 2) ∧
    (1 : Int) ≠ 2 :=
  ⟨rfl, rfl, by decide⟩

/-- The attestation document body of the `/attestation` endpoint.
    Timestamps are modelled in seconds; the isoformat rendering of an
    instant used by the source is injective and order preserving, so
    nothing is lost.  The four capability flags are the constants of the
    source. -/
structure AttestationDoc where
  teeType : String
  codeMeasurement : String
  imageId : Option String
  instanceId : Option String
  instanceName : Option String
  zone : Option String
  publicKey : String
  generatedAt : Nat
  expiresAt : Nat
  confidentialComputing : Bool
  secureBoot : Bool
  sshDisabled : Bool
  immutableCode : Bool
deriving DecidableEq, Repr

/-- A JSON value occurring in the attestation document. -/
inductive JsonField
  | str (s : String)
  | optStr (s : Option String)
  | bool (b : Bool)
  | time (t : Nat)
deriving DecidableEq, Repr

/-- `json.dumps(attestation_data, sort_keys=True)` modelled as the
    key-ordered association list the serializer emits. -/
def serializeAttestation (d : AttestationDoc) : List (String × JsonField) :=
  [("code_measurement", .str d.codeMeasurement),
    ("confidential_computing", .bool d.confidentialComputing),
    ("expires_at", .time d.expiresAt),
    ("generated_at", .time d.generatedAt),
    ("image_id", .optStr d.imageId),
    ("immutable_code", .bool d.immutableCode),
    ("instance_id", .optStr d.instanceId),
    ("instance_name", .optStr d.instanceName),
    ("public_key", .str d.publicKey),
    ("secure_boot", .bool d.secureBoot),
    ("ssh_disabled", .bool d.sshDisabled),
    ("tee_type", .str d.teeType),
    ("zone", .optStr d.zone)]

/-- The key list of the canonical serialization, in emitted order. -/
def attestationKeys : List String :=
  ["code_measurement", "confidential_computing", "expires_at", "generated_at",
    "image_id", "immutable_code", "instance_id", "instance_name", "public_key",
    "secure_boot", "ssh_disabled", "tee_type", "zone"]

lemma serializeAttestation_keys (d : AttestationDoc) :
    (serializeAttestation d).map Prod.fst = attestationKeys := rfl

/-- Strict lexicographic order on character lists — the order by which
    the Python serializer sorts string keys (code points). -/
def charListLtB : List Char → List Char → Bool
  | [], [] => false
  | [], _ :: _ => true
  | _ :: _, [] => false
  | a :: as, b :: bs => if a < b then true else if a = b then charListLtB as bs else false

/-- Strictly increasing key order. -/
def strictSortedB : List (List Char) → Bool
  | [] => true
  | [_] => true
  | a :: b :: t => charListLtB a b && strictSortedB (b :: t)

/-- The `/attestation` response: document, signature, algorithm tag. -/
structure AttestationResponse where
  attestation : AttestationDoc
  signature : String
  signatureAlgorithm : String

/-- Model of the `/attestation` handler.  `t1` and `t2` are the two
    separate `utcnow()` readings of the source (`generated_at` is taken
    first, the expiry base second); `sign` stands for RSA-PSS/SHA-256
    signing with the identity private key, applied to the canonical
    serialization of the document body. -/
def buildAttestation (sign : List (String × JsonField) → String)
    (codeHash : String) (imageId instanceId instanceName zone : Option String)
    (publicKey : String) (t1 t2 : Nat) : AttestationResponse :=
  let doc : AttestationDoc :=
    ⟨"gcp_confidential_vm", codeHash, imageId, instanceId, instanceName, zone,
      publicKey, t1, t2 + 86400, true, true, true, true⟩
  ⟨doc, sign (serializeAttestation doc), "RSA-PSS-SHA256"⟩

/-- Amended claim C6: the expiry is 24 hours after the second clock
    reading (so exactly 24 hours after `generated_at` precisely when the
    two readings coincide, and never less), the signed message is the
    canonical sorted-key serialization of the document body, the
    algorithm tag is RSA-PSS/SHA-256, and any verifier correct for the
    signer accepts the signature on that serialization. -/
theorem attestation_document_contract
    (sign : List (String × JsonField) → String)
    (verify : String → List (String × JsonField) → Bool)
    (codeHash : String) (imageId instanceId instanceName zone : Option String)
    (publicKey : String) (t1 t2 : Nat) (resp : AttestationResponse)
    (hresp : resp = buildAttestation sign codeHash imageId instanceId
      instanceName zone publicKey t1 t2)
    (hmono : t1 ≤ t2)
    (hverify : ∀ m, verify (sign m) m = true) :
    resp.attestation.generatedAt = t1 ∧
    resp.attestation.expiresAt = t2 + 86400 ∧
    (t2 = t1 → resp.attestation.expiresAt = resp.attestation.generatedAt + 86400) ∧
    resp.attestation.generatedAt + 86400 ≤ resp.attestation.expiresAt ∧
    (serializeAttestation resp.attestation).map Prod.fst = attestationKeys ∧
    strictSortedB (attestationKeys.map String.data) = true ∧
    resp.signature = sign (serializeAttestation resp.attestation) ∧
    resp.signatureAlgorithm = "RSA-PSS-SHA256" ∧
    verify resp.signature (serializeAttestation resp.attestation) = true := by
  subst hresp
  refine ⟨rfl, rfl, fun h => ?_, ?_, serializeAttestation_keys _, by decide,
    rfl, rfl, hverify _⟩
  · show t2 + 86400 = t1 + 86400
    rw [h]
  · show t1 + 86400 ≤ t2 + 86400
    omega

/-- Witness for the amended C6 with coinciding clock readings. -/
theorem attestation_document_contract_witness :
    (5 : Nat) ≤ 5 ∧
    (buildAttestation (fun _ => "sig") "h" none none none none "pk" 5 5).attestation.expiresAt =
      (buildAttestation (fun _ => "sig") "h" none none none none "pk" 5 5).attestation.generatedAt
        + 86400 :=
  ⟨le_refl 5,
    (attestation_document_contract (fun _ => "sig") (fun s _ => s == "sig")
      "h" none none none none "pk" 5 5 _ rfl (le_refl 5)
      (fun m => by simp)).2.2.1 rfl⟩

/-- Counterexample to claim C6: the source reads the clock twice, so
    whenever the second reading is later (here one second), the expiry
    is not exactly 24 hours after `generated_at`. -/
theorem attestation_expiry_not_exact :
    ¬ ((buildAttestation (fun _ => "") "h" none none none none "pk" 0 1).attestation.expiresAt =
      (buildAttestation (fun _ => "") "h" none none none none "pk" 0 1).attestation.generatedAt
        + 86400) := by
  decide

end TeeCore
